import Mathlib

/-!
# Location tracker backend — shallow embedding of `src/server.js`

The embedding models the location state and broadcast subsystem:

* the two Mongoose collections (`Location`, `PathHistory`) as association
  lists of records keyed by `trackId`;
* the two update entry points (`POST /api/location/update` and the
  Socket.IO `location:update` handler) as pure functions from a server
  state and an input to a result, a new state and a list of emissions;
* the read routes, the deactivation route, the manual cleanup route and
  the hourly cleanup job;
* the Socket.IO room registry (`socket.join` / `io.to(room).emit`) as a
  `Broadcaster` whose rooms are sets of socket ids (Socket.IO's adapter
  stores room membership in a `Set`, so joining twice is a no-op).

JavaScript numbers are modelled as rationals (`ℚ`) and times as integer
milliseconds (`Int`).  Each handler invocation is given a single `now`
(the source calls `new Date()` several times inside one handler; the
handful of milliseconds between those calls carries no meaning in the
spec, so one timestamp per invocation is used).

A Mongoose-semantics note that matters below: `pre('save')` document
middleware does **not** run on `findOneAndUpdate` queries.  The source's
24-hour point filter (`pathHistorySchema.pre('save')`, lines 76–80) is
therefore never executed by either update path, both of which write via
`PathHistory.findOneAndUpdate`.  The hook's filter is embedded separately
as `preSavePathFilter` so that the divergence can be stated.
-/

namespace Tracker

/-- Milliseconds in one hour (`60 * 60 * 1000` in the source). -/
def hourMs : Int := 60 * 60 * 1000

/-- Milliseconds in 24 hours (`24 * 60 * 60 * 1000` in the source). -/
def dayMs : Int := 24 * 60 * 60 * 1000

/-- Input of an update request: `{ trackId, lat, lng, speed, accuracy }`
destructured from `req.body` / the socket message.  `lat`, `lng`,
`speed`, `accuracy` may be absent (`undefined`), hence `Option`. -/
structure LocUpdateInput where
  trackId : String
  lat : Option ℚ
  lng : Option ℚ
  speed : Option ℚ
  accuracy : Option ℚ
deriving DecidableEq, Repr

/-- JavaScript `v || 0` on an optional number: `undefined` and `0` are
falsy and give `0`, any other number is returned unchanged. -/
def jsOrZero : Option ℚ → ℚ
  | none => 0
  | some x => if x = 0 then 0 else x

/-- A document of the `Location` collection (`locationSchema`). -/
structure LocationRecord where
  trackId : String
  lat : ℚ
  lng : ℚ
  speed : ℚ
  accuracy : ℚ
  timestamp : Int
  isActive : Bool
deriving DecidableEq, Repr

/-- One element of a `PathHistory` document's `points` array. -/
structure TrailPoint where
  lat : ℚ
  lng : ℚ
  timestamp : Int
deriving DecidableEq, Repr

/-- A document of the `PathHistory` collection (`pathHistorySchema`). -/
structure PathHistoryRecord where
  trackId : String
  points : List TrailPoint
  lastUpdated : Int
deriving DecidableEq, Repr

/-- The two collections of the database. -/
structure ServerState where
  locations : List LocationRecord
  paths : List PathHistoryRecord
deriving DecidableEq, Repr

/-- `findOne({ trackId: tid })` on a collection whose documents expose
their key through `keyOf`: the first matching document, if any. -/
def findBy {α : Type} (keyOf : α → String) (db : List α) (tid : String) : Option α :=
  db.find? (fun r => keyOf r == tid)

/-- The update half of `findOneAndUpdate({ trackId: tid }, ...)`: apply `f`
to the first document whose key is `tid`, leave everything else alone. -/
def updateFirst {α : Type} (keyOf : α → String) (tid : String) (f : α → α) :
    List α → List α
  | [] => []
  | r :: rest =>
    if keyOf r = tid then f r :: rest else r :: updateFirst keyOf tid f rest

/-- `Location.findOne({ trackId })`. -/
def findLocation (db : List LocationRecord) (tid : String) : Option LocationRecord :=
  findBy (fun r => r.trackId) db tid

/-- `PathHistory.findOne({ trackId })`. -/
def findPath (db : List PathHistoryRecord) (tid : String) : Option PathHistoryRecord :=
  findBy (fun r => r.trackId) db tid

/-- `Location.findOneAndUpdate({ trackId }, r, { upsert: true })` where the
update sets every field: replace the matched document, or insert. -/
def upsertLocation (db : List LocationRecord) (tid : String) (r : LocationRecord) :
    List LocationRecord :=
  if (findLocation db tid).isSome then updateFirst (fun x => x.trackId) tid (fun _ => r) db
  else db ++ [r]

/-- MongoDB `$slice: -n` after a `$push`: keep only the last `n` elements. -/
def sliceLastN (n : Nat) (l : List TrailPoint) : List TrailPoint :=
  l.drop (l.length - n)

/-- Effect of `$push: { points: { $each: [pt], $slice: -1000 } }` together
with setting `lastUpdated` on one `PathHistory` document. -/
def pushTrailPoint (pt : TrailPoint) (now : Int) (r : PathHistoryRecord) :
    PathHistoryRecord :=
  { r with points := sliceLastN 1000 (r.points ++ [pt]), lastUpdated := now }

/-- `PathHistory.findOneAndUpdate({ trackId }, { $push: ..., lastUpdated },
{ upsert: true })`: push-and-slice on the matched document, or insert a
fresh document holding just the new point. -/
def upsertPath (db : List PathHistoryRecord) (tid : String) (pt : TrailPoint)
    (now : Int) : List PathHistoryRecord :=
  if (findPath db tid).isSome then
    updateFirst (fun x => x.trackId) tid (pushTrailPoint pt now) db
  else db ++ [{ trackId := tid, points := sliceLastN 1000 [pt], lastUpdated := now }]

/-- The filter of `pathHistorySchema.pre('save')` (source lines 76–80):
keep only points strictly newer than 24 hours ago.  NOTE: this document
middleware is never triggered by the `findOneAndUpdate` writes the
handlers use, so it is *not* part of `upsertPath`. -/
def preSavePathFilter (now : Int) (points : List TrailPoint) : List TrailPoint :=
  points.filter (fun p => now - dayMs < p.timestamp)

/-- The payload object both handlers broadcast:
`{ trackId, lat, lng, speed: speed || 0, accuracy: accuracy || 0, timestamp }`. -/
structure UpdatePayload where
  trackId : String
  lat : ℚ
  lng : ℚ
  speed : ℚ
  accuracy : ℚ
  timestamp : Int
deriving DecidableEq, Repr

/-- A Socket.IO emission performed by a handler:
`io.emit(event, payload)` (global fan-out to every connected client),
`io.to(room).emit(event, payload)` (delivery to the room's members), or
`socket.emit(event, msg)` (a message to one specific socket). -/
inductive Emission where
  | global (event : String) (payload : UpdatePayload)
  | room (roomName : String) (event : String) (payload : UpdatePayload)
  | direct (sid : String) (event : String) (message : String)
deriving DecidableEq, Repr

/-- The accept/reject decision of an update entry point.  The REST route
reports it as an HTTP status + JSON body, the socket handler as an
`error` emission; the decision itself is shared. -/
inductive UpdateResult where
  | missingFields
  | invalidCoordinates
  | success (location : LocationRecord)
deriving DecidableEq, Repr

/-- `POST /api/location/update` (source lines 135–203).  Returns the
decision (the HTTP response), the new database state, and the
broadcast emissions, in source order. -/
def restLocationUpdate (st : ServerState) (inp : LocUpdateInput) (now : Int) :
    UpdateResult × ServerState × List Emission :=
  match inp.lat, inp.lng with
  | some la, some ln =>
    if inp.trackId = "" then (.missingFields, st, [])
    else if la < -90 ∨ la > 90 ∨ ln < -180 ∨ ln > 180 then
      (.invalidCoordinates, st, [])
    else
      let location : LocationRecord :=
        { trackId := inp.trackId, lat := la, lng := ln,
          speed := jsOrZero inp.speed, accuracy := jsOrZero inp.accuracy,
          timestamp := now, isActive := true }
      let locations := upsertLocation st.locations inp.trackId location
      let paths := upsertPath st.paths inp.trackId
        { lat := la, lng := ln, timestamp := now } now
      let payload : UpdatePayload :=
        { trackId := inp.trackId, lat := la, lng := ln,
          speed := jsOrZero inp.speed, accuracy := jsOrZero inp.accuracy,
          timestamp := now }
      (.success location, { locations := locations, paths := paths },
        [ .global "location:updated" payload,
          .global ("location:" ++ inp.trackId) payload ])
  | _, _ => (.missingFields, st, [])

/-- The `socket.on('location:update')` handler (source lines 361–429).
Identical validation and database writes; on rejection it emits an
`error` message back to the sender, and on success it additionally
broadcasts to the `track:{trackId}` room. -/
def socketLocationUpdate (st : ServerState) (sid : String) (inp : LocUpdateInput)
    (now : Int) : UpdateResult × ServerState × List Emission :=
  match inp.lat, inp.lng with
  | some la, some ln =>
    if inp.trackId = "" then
      (.missingFields, st, [.direct sid "error" "Missing required fields"])
    else if la < -90 ∨ la > 90 ∨ ln < -180 ∨ ln > 180 then
      (.invalidCoordinates, st, [.direct sid "error" "Invalid coordinates"])
    else
      let location : LocationRecord :=
        { trackId := inp.trackId, lat := la, lng := ln,
          speed := jsOrZero inp.speed, accuracy := jsOrZero inp.accuracy,
          timestamp := now, isActive := true }
      let locations := upsertLocation st.locations inp.trackId location
      let paths := upsertPath st.paths inp.trackId
        { lat := la, lng := ln, timestamp := now } now
      let updateData : UpdatePayload :=
        { trackId := inp.trackId, lat := la, lng := ln,
          speed := jsOrZero inp.speed, accuracy := jsOrZero inp.accuracy,
          timestamp := now }
      (.success location, { locations := locations, paths := paths },
        [ .global "location:updated" updateData,
          .room ("track:" ++ inp.trackId) "location:updated" updateData,
          .global ("location:" ++ inp.trackId) updateData ])
  | _, _ => (.missingFields, st, [.direct sid "error" "Missing required fields"])

/-- The Socket.IO connection/room registry.  `connections` is the set of
currently connected socket ids; `rooms` holds (room name, socket id)
membership pairs.  Socket.IO's adapter stores rooms as `Set`s, so
membership is a set: `joinRoom` inserts only if absent. -/
structure Broadcaster where
  connections : List String
  rooms : List (String × String)
deriving DecidableEq, Repr

/-- `socket.join(roomName)`: add the socket to the room; a no-op when the
socket is already a member (Socket.IO room membership is a `Set`). -/
def joinRoom (b : Broadcaster) (roomName sid : String) : Broadcaster :=
  if (roomName, sid) ∈ b.rooms then b
  else { b with rooms := b.rooms ++ [(roomName, sid)] }

/-- The `socket.on('track:subscribe')` handler (source lines 343–349):
join room `track:{trackId}` and acknowledge with `track:subscribed`. -/
def trackSubscribe (b : Broadcaster) (sid trackId : String) :
    Broadcaster × List Emission :=
  (joinRoom b ("track:" ++ trackId) sid,
   [.direct sid "track:subscribed" trackId])

/-- Whether one emission delivers an event named `event` to socket `sid`,
given the registry `b`: a global `io.emit` reaches every connected
client, a room emission reaches the room's members, a direct emission
reaches its addressee. -/
def emissionReaches (b : Broadcaster) (sid event : String) : Emission → Bool
  | .global e _ => e == event && decide (sid ∈ b.connections)
  | .room r e _ => e == event && decide ((r, sid) ∈ b.rooms)
  | .direct s e _ => s == sid && e == event

/-- Number of deliveries of event `event` that socket `sid` receives from
the emission list `ems` (each emission delivers at most once per socket). -/
def deliveriesTo (b : Broadcaster) (sid event : String) (ems : List Emission) : Nat :=
  (ems.filter (emissionReaches b sid event)).length

/-- Whether an emission is a per-topic (room) delivery of `event` to `sid`. -/
def roomEmissionReaches (b : Broadcaster) (sid event : String) : Emission → Bool
  | .room r e _ => e == event && decide ((r, sid) ∈ b.rooms)
  | _ => false

/-- Number of per-topic (room channel) deliveries of `event` to `sid`. -/
def topicDeliveriesTo (b : Broadcaster) (sid event : String)
    (ems : List Emission) : Nat :=
  (ems.filter (roomEmissionReaches b sid event)).length

/-- Whether an emission is a global `io.emit` fan-out. -/
def isGlobalEmission : Emission → Bool
  | .global _ _ => true
  | _ => false

/-- Whether an emission targets a room (`io.to(room).emit`). -/
def isRoomEmission : Emission → Bool
  | .room _ _ _ => true
  | _ => false

/-- Result of `GET /api/location/:trackId` (source lines 206–232). -/
inductive GetLocationResult where
  | missingId
  | notFound
  | found (location : LocationRecord) (isRecent : Bool)
deriving DecidableEq, Repr

/-- `GET /api/location/:trackId`: look the record up and report whether it
was updated within the last 30 seconds. -/
def getLocationRoute (st : ServerState) (tid : String) (now : Int) :
    GetLocationResult :=
  if tid = "" then .missingId
  else
    match findLocation st.locations tid with
    | none => .notFound
    | some location => .found location (decide (now - 30000 < location.timestamp))

/-- Result of `GET /api/path/:trackId` (source lines 235–260). -/
inductive GetPathResult where
  | missingId
  | points (pts : List TrailPoint)
deriving DecidableEq, Repr

/-- `GET /api/path/:trackId?hours=N`: the stored points whose timestamp is
strictly newer than `now - N` hours (empty when the track is unknown). -/
def getPathRoute (st : ServerState) (tid : String) (hours : Int) (now : Int) :
    GetPathResult :=
  if tid = "" then .missingId
  else
    match findPath st.paths tid with
    | none => .points []
    | some ph =>
      .points (ph.points.filter (fun p => decide (now - hours * hourMs < p.timestamp)))

/-- Result of `POST /api/location/deactivate/:trackId` (lines 263–287). -/
inductive DeactivateResult where
  | missingId
  | notFound
  | success
deriving DecidableEq, Repr

/-- `POST /api/location/deactivate/:trackId`:
`Location.findOneAndUpdate({ trackId }, { isActive: false })` — Mongoose
casts the plain update object to `$set`, so only `isActive` changes;
404 when no document matches. -/
def deactivateRoute (st : ServerState) (tid : String) :
    DeactivateResult × ServerState :=
  if tid = "" then (.missingId, st)
  else if (findLocation st.locations tid).isSome then
    let locations := updateFirst (fun x => x.trackId) tid
      (fun r => { r with isActive := false }) st.locations
    (.success, { st with locations := locations })
  else (.notFound, st)

/-- `POST /api/cleanup` (source lines 290–315): delete `Location` documents
with `timestamp < now − 24h` and `PathHistory` documents with
`lastUpdated < now − 24h`; respond with both deleted counts. -/
def cleanupRoute (st : ServerState) (now : Int) : (Nat × Nat) × ServerState :=
  let cutoff := now - dayMs
  let keptLocations := st.locations.filter (fun r => !decide (r.timestamp < cutoff))
  let keptPaths := st.paths.filter (fun r => !decide (r.lastUpdated < cutoff))
  ((st.locations.length - keptLocations.length, st.paths.length - keptPaths.length),
   { locations := keptLocations, paths := keptPaths })

/-- One tick of the hourly cleanup job (source lines 448–466): the same
two `deleteMany` calls with cutoff `now − 24h`. -/
def janitorTick (st : ServerState) (now : Int) : ServerState :=
  let cutoff := now - dayMs
  { locations := st.locations.filter (fun r => !decide (r.timestamp < cutoff)),
    paths := st.paths.filter (fun r => !decide (r.lastUpdated < cutoff)) }

/-- Run a sequence of REST updates (input, time), threading the state. -/
def runRestUpdates (st : ServerState) (l : List (LocUpdateInput × Int)) : ServerState :=
  l.foldl (fun s q => (restLocationUpdate s q.1 q.2).2.1) st

/-- Build the update input `{ trackId: tid, lat, lng }` (no speed/accuracy)
at a given time, from a `(lat, lng, time)` triple. -/
def mkInput (tid : String) (q : ℚ × ℚ × Int) : LocUpdateInput × Int :=
  ({ trackId := tid, lat := some q.1, lng := some q.2.1, speed := none,
     accuracy := none }, q.2.2)

/-- The trail point recorded for a `(lat, lng, time)` triple. -/
def mkPoint (q : ℚ × ℚ × Int) : TrailPoint :=
  { lat := q.1, lng := q.2.1, timestamp := q.2.2 }

/-! ## Lemmas about the store primitives -/

theorem jsOrZero_eq_getD (v : Option ℚ) : jsOrZero v = v.getD 0 := by
  cases v with
  | none => rfl
  | some x =>
    by_cases h : x = 0 <;> simp [jsOrZero, h]

theorem length_sliceLastN_le (n : Nat) (l : List TrailPoint) :
    (sliceLastN n l).length ≤ n := by
  simp only [sliceLastN, List.length_drop]
  omega

theorem sliceLastN_of_le {n : Nat} {l : List TrailPoint} (h : l.length ≤ n) :
    sliceLastN n l = l := by
  simp [sliceLastN, Nat.sub_eq_zero_of_le h]

theorem sliceLastN_append_left (n : Nat) (a l : List TrailPoint) :
    sliceLastN n (sliceLastN n a ++ l) = sliceLastN n (a ++ l) := by
  by_cases h : a.length ≤ n
  · rw [sliceLastN_of_le h]
  · have hk : a.length - n ≤ a.length := Nat.sub_le _ _
    unfold sliceLastN
    rw [List.length_append, List.length_drop, List.length_append]
    have h1 : a.length - (a.length - n) + l.length - n = l.length := by omega
    have h2 : a.length + l.length - n = a.length - n + l.length := by omega
    rw [h1, h2, ← List.drop_drop, List.drop_append_of_le_length hk]

theorem foldl_push_eq_sliceLastN (l : List TrailPoint) :
    ∀ pts0 : List TrailPoint, pts0.length ≤ 1000 →
      List.foldl (fun a p => sliceLastN 1000 (a ++ [p])) pts0 l
        = sliceLastN 1000 (pts0 ++ l) := by
  induction l with
  | nil =>
    intro pts0 h
    simpa using (sliceLastN_of_le h).symm
  | cons p l ih =>
    intro pts0 h
    rw [List.foldl_cons, ih _ (length_sliceLastN_le _ _), sliceLastN_append_left]
    simp

theorem findBy_updateFirst_self {α : Type} {keyOf : α → String} {db : List α}
    {tid : String} {f : α → α} {r : α}
    (hf : ∀ x, keyOf x = tid → keyOf (f x) = tid)
    (h : findBy keyOf db tid = some r) :
    findBy keyOf (updateFirst keyOf tid f db) tid = some (f r) := by
  induction db with
  | nil => exact absurd h (by simp [findBy])
  | cons a rest ih =>
    by_cases ha : keyOf a = tid
    · have h1 : findBy keyOf (a :: rest) tid = some a := by
        unfold findBy
        exact List.find?_cons_of_pos _ (by simpa using ha)
      rw [h1] at h
      injection h with h2
      have h3 : updateFirst keyOf tid f (a :: rest) = f a :: rest := by
        simp only [updateFirst, if_pos ha]
      rw [h3, ← h2]
      unfold findBy
      exact List.find?_cons_of_pos _ (by simpa using hf a ha)
    · have h1 : findBy keyOf (a :: rest) tid = findBy keyOf rest tid := by
        unfold findBy
        exact List.find?_cons_of_neg _ (by simpa using ha)
      rw [h1] at h
      have h3 : updateFirst keyOf tid f (a :: rest)
          = a :: updateFirst keyOf tid f rest := by
        simp only [updateFirst, if_neg ha]
      rw [h3]
      unfold findBy
      rw [List.find?_cons_of_neg _ (by simpa using ha)]
      exact ih h

theorem findBy_updateFirst_other {α : Type} {keyOf : α → String} {tid t2 : String}
    {f : α → α} (db : List α)
    (hf : ∀ x, keyOf x = tid → keyOf (f x) = tid) (hne : t2 ≠ tid) :
    findBy keyOf (updateFirst keyOf tid f db) t2 = findBy keyOf db t2 := by
  induction db with
  | nil => rfl
  | cons a rest ih =>
    by_cases ha : keyOf a = tid
    · have hfa : ¬ keyOf (f a) = t2 := fun hh => hne (hh.symm.trans (hf a ha))
      have haa : ¬ keyOf a = t2 := fun hh => hne (hh.symm.trans ha)
      have h3 : updateFirst keyOf tid f (a :: rest) = f a :: rest := by
        simp only [updateFirst, if_pos ha]
      rw [h3]
      unfold findBy
      rw [List.find?_cons_of_neg _ (by simpa using hfa),
        List.find?_cons_of_neg _ (by simpa using haa)]
    · have h3 : updateFirst keyOf tid f (a :: rest)
          = a :: updateFirst keyOf tid f rest := by
        simp only [updateFirst, if_neg ha]
      rw [h3]
      by_cases ha2 : keyOf a = t2
      · unfold findBy
        rw [List.find?_cons_of_pos _ (by simpa using ha2),
          List.find?_cons_of_pos _ (by simpa using ha2)]
      · unfold findBy
        rw [List.find?_cons_of_neg _ (by simpa using ha2),
          List.find?_cons_of_neg _ (by simpa using ha2)]
        exact ih

theorem mem_updateFirst {α : Type} {keyOf : α → String} {tid : String}
    {f : α → α} {x : α} : ∀ {db : List α},
    x ∈ updateFirst keyOf tid f db → x ∈ db ∨ ∃ r ∈ db, x = f r := by
  intro db
  induction db with
  | nil => intro h; simp [updateFirst] at h
  | cons a rest ih =>
    intro h
    by_cases ha : keyOf a = tid
    · simp only [updateFirst, if_pos ha, List.mem_cons] at h
      rcases h with h | h
      · exact Or.inr ⟨a, List.mem_cons_self a rest, h⟩
      · exact Or.inl (List.mem_cons_of_mem a h)
    · simp only [updateFirst, if_neg ha, List.mem_cons] at h
      rcases h with h | h
      · exact Or.inl (by simp [h])
      · rcases ih h with h' | ⟨r, hr, hx⟩
        · exact Or.inl (List.mem_cons_of_mem a h')
        · exact Or.inr ⟨r, List.mem_cons_of_mem a hr, hx⟩

theorem findLocation_upsert_self (db : List LocationRecord) (tid : String)
    (r : LocationRecord) (hr : r.trackId = tid) :
    findLocation (upsertLocation db tid r) tid = some r := by
  unfold upsertLocation
  by_cases h : (findLocation db tid).isSome
  · rw [if_pos h]
    obtain ⟨x, hx⟩ := Option.isSome_iff_exists.mp h
    exact findBy_updateFirst_self (fun y _ => hr) hx
  · rw [if_neg h]
    have hnone : findBy (fun x => x.trackId) db tid = none := by
      unfold findLocation at h
      exact Option.not_isSome_iff_eq_none.mp h
    unfold findLocation findBy at hnone ⊢
    rw [List.find?_append, hnone]
    have hone : List.find? (fun x => x.trackId == tid) [r] = some r :=
      List.find?_cons_of_pos _ (by simpa using hr)
    rw [hone]
    rfl

theorem length_filter_not_add {α : Type} (p : α → Bool) (l : List α) :
    (l.filter fun a => !p a).length + (l.filter p).length = l.length := by
  induction l with
  | nil => rfl
  | cons a t ih =>
    cases hp : p a <;> simp [List.filter_cons, hp] <;> omega

theorem append_left_cancel_str {s t u : String} (h : s ++ t = s ++ u) : t = u := by
  apply String.ext
  have h2 := congrArg String.data h
  rw [String.data_append, String.data_append] at h2
  exact List.append_cancel_left h2

theorem legacy_event_ne {tid : String} (h : tid ≠ "updated") :
    ("location:" ++ tid) ≠ "location:updated" := by
  intro hh
  apply h
  apply append_left_cancel_str (s := "location:")
  rw [hh]
  decide

/-! ## Behaviour of the two update entry points -/

theorem restLocationUpdate_accepted (st : ServerState) (tid : String) (la ln : ℚ)
    (sp ac : Option ℚ) (now : Int) (htid : tid ≠ "")
    (hr : ¬(la < -90 ∨ la > 90 ∨ ln < -180 ∨ ln > 180)) :
    restLocationUpdate st ⟨tid, some la, some ln, sp, ac⟩ now =
      (.success ⟨tid, la, ln, jsOrZero sp, jsOrZero ac, now, true⟩,
       ⟨upsertLocation st.locations tid ⟨tid, la, ln, jsOrZero sp, jsOrZero ac, now, true⟩,
        upsertPath st.paths tid ⟨la, ln, now⟩ now⟩,
       [.global "location:updated" ⟨tid, la, ln, jsOrZero sp, jsOrZero ac, now⟩,
        .global ("location:" ++ tid) ⟨tid, la, ln, jsOrZero sp, jsOrZero ac, now⟩]) := by
  unfold restLocationUpdate
  simp only [if_neg htid, if_neg hr]

theorem socketLocationUpdate_accepted (st : ServerState) (sid tid : String)
    (la ln : ℚ) (sp ac : Option ℚ) (now : Int) (htid : tid ≠ "")
    (hr : ¬(la < -90 ∨ la > 90 ∨ ln < -180 ∨ ln > 180)) :
    socketLocationUpdate st sid ⟨tid, some la, some ln, sp, ac⟩ now =
      (.success ⟨tid, la, ln, jsOrZero sp, jsOrZero ac, now, true⟩,
       ⟨upsertLocation st.locations tid ⟨tid, la, ln, jsOrZero sp, jsOrZero ac, now, true⟩,
        upsertPath st.paths tid ⟨la, ln, now⟩ now⟩,
       [.global "location:updated" ⟨tid, la, ln, jsOrZero sp, jsOrZero ac, now⟩,
        .room ("track:" ++ tid) "location:updated" ⟨tid, la, ln, jsOrZero sp, jsOrZero ac, now⟩,
        .global ("location:" ++ tid) ⟨tid, la, ln, jsOrZero sp, jsOrZero ac, now⟩]) := by
  unfold socketLocationUpdate
  simp only [if_neg htid, if_neg hr]

theorem restLocationUpdate_out_of_range (st : ServerState) (tid : String)
    (la ln : ℚ) (sp ac : Option ℚ) (now : Int) (htid : tid ≠ "")
    (hr : la < -90 ∨ la > 90 ∨ ln < -180 ∨ ln > 180) :
    restLocationUpdate st ⟨tid, some la, some ln, sp, ac⟩ now
      = (.invalidCoordinates, st, []) := by
  unfold restLocationUpdate
  simp only [if_neg htid, if_pos hr]

theorem socketLocationUpdate_out_of_range (st : ServerState) (sid tid : String)
    (la ln : ℚ) (sp ac : Option ℚ) (now : Int) (htid : tid ≠ "")
    (hr : la < -90 ∨ la > 90 ∨ ln < -180 ∨ ln > 180) :
    socketLocationUpdate st sid ⟨tid, some la, some ln, sp, ac⟩ now
      = (.invalidCoordinates, st, [.direct sid "error" "Invalid coordinates"]) := by
  unfold socketLocationUpdate
  simp only [if_neg htid, if_pos hr]

theorem socket_rest_agree (st : ServerState) (sid : String) (inp : LocUpdateInput)
    (now : Int) :
    (socketLocationUpdate st sid inp now).1 = (restLocationUpdate st inp now).1 ∧
    (socketLocationUpdate st sid inp now).2.1 = (restLocationUpdate st inp now).2.1 := by
  unfold socketLocationUpdate restLocationUpdate
  cases hla : inp.lat with
  | none => cases hln : inp.lng <;> exact ⟨rfl, rfl⟩
  | some la =>
    cases hln : inp.lng with
    | none => exact ⟨rfl, rfl⟩
    | some ln =>
      by_cases h1 : inp.trackId = ""
      · simp only [if_pos h1]
        exact ⟨trivial, trivial⟩
      · by_cases h2 : la < -90 ∨ la > 90 ∨ ln < -180 ∨ ln > 180
        · simp only [if_neg h1, if_pos h2]
          exact ⟨trivial, trivial⟩
        · simp only [if_neg h1, if_neg h2]
          exact ⟨trivial, trivial⟩

/-! ## Trail length invariant machinery -/

theorem paths_bound_upsertPath {db : List PathHistoryRecord} {tid : String}
    {pt : TrailPoint} {now : Int}
    (h : ∀ ph ∈ db, ph.points.length ≤ 1000) :
    ∀ ph ∈ upsertPath db tid pt now, ph.points.length ≤ 1000 := by
  intro ph hph
  unfold upsertPath at hph
  by_cases hf : (findPath db tid).isSome
  · rw [if_pos hf] at hph
    rcases mem_updateFirst hph with h1 | ⟨r, _, hx⟩
    · exact h ph h1
    · rw [hx]
      simp only [pushTrailPoint]
      exact length_sliceLastN_le _ _
  · rw [if_neg hf] at hph
    rcases List.mem_append.mp hph with h1 | h1
    · exact h ph h1
    · rw [List.mem_singleton.mp h1]
      simp [sliceLastN]

theorem paths_bound_step {st : ServerState}
    (h : ∀ ph ∈ st.paths, ph.points.length ≤ 1000) (inp : LocUpdateInput)
    (now : Int) :
    ∀ ph ∈ (restLocationUpdate st inp now).2.1.paths, ph.points.length ≤ 1000 := by
  unfold restLocationUpdate
  cases hla : inp.lat with
  | none => cases hln : inp.lng <;> exact h
  | some la =>
    cases hln : inp.lng with
    | none => exact h
    | some ln =>
      by_cases h1 : inp.trackId = ""
      · simp only [if_pos h1]
        exact h
      · by_cases h2 : la < -90 ∨ la > 90 ∨ ln < -180 ∨ ln > 180
        · simp only [if_neg h1, if_pos h2]
          exact h
        · simp only [if_neg h1, if_neg h2]
          exact paths_bound_upsertPath h

theorem paths_bound_run (l : List (LocUpdateInput × Int)) :
    ∀ st : ServerState, (∀ ph ∈ st.paths, ph.points.length ≤ 1000) →
      ∀ ph ∈ (runRestUpdates st l).paths, ph.points.length ≤ 1000 := by
  induction l with
  | nil => intro st h; exact h
  | cons q rest ih =>
    intro st h
    have hstep := paths_bound_step h q.1 q.2
    have : runRestUpdates st (q :: rest)
        = runRestUpdates (restLocationUpdate st q.1 q.2).2.1 rest := by
      unfold runRestUpdates
      rw [List.foldl_cons]
    rw [this]
    exact ih _ hstep

theorem rest_step_paths_singleton (locs : List LocationRecord) (tid : String)
    (pts : List TrailPoint) (t0 : Int) (la ln : ℚ) (tm : Int) (htid : tid ≠ "")
    (hr : ¬(la < -90 ∨ la > 90 ∨ ln < -180 ∨ ln > 180)) :
    (restLocationUpdate ⟨locs, [⟨tid, pts, t0⟩]⟩
        ⟨tid, some la, some ln, none, none⟩ tm).2.1.paths
      = [⟨tid, sliceLastN 1000 (pts ++ [⟨la, ln, tm⟩]), tm⟩] := by
  rw [restLocationUpdate_accepted _ _ _ _ _ _ _ htid hr]
  unfold upsertPath findPath findBy
  simp [updateFirst, pushTrailPoint]

theorem rest_step_paths_empty (locs : List LocationRecord) (tid : String)
    (la ln : ℚ) (tm : Int) (htid : tid ≠ "")
    (hr : ¬(la < -90 ∨ la > 90 ∨ ln < -180 ∨ ln > 180)) :
    (restLocationUpdate ⟨locs, []⟩ ⟨tid, some la, some ln, none, none⟩ tm).2.1.paths
      = [⟨tid, [⟨la, ln, tm⟩], tm⟩] := by
  rw [restLocationUpdate_accepted _ _ _ _ _ _ _ htid hr]
  unfold upsertPath findPath findBy
  simp [sliceLastN]

theorem run_paths_singleton (tid : String) (htid : tid ≠ "") :
    ∀ l : List (ℚ × ℚ × Int),
      (∀ q ∈ l, -90 ≤ q.1 ∧ q.1 ≤ 90 ∧ -180 ≤ q.2.1 ∧ q.2.1 ≤ 180) →
      ∀ (locs : List LocationRecord) (pts : List TrailPoint) (t0 : Int),
        ∃ t' : Int,
          (runRestUpdates ⟨locs, [⟨tid, pts, t0⟩]⟩ (l.map (mkInput tid))).paths
            = [⟨tid,
                List.foldl (fun a q => sliceLastN 1000 (a ++ [mkPoint q])) pts l,
                t'⟩] := by
  intro l
  induction l with
  | nil =>
    intro _ locs pts t0
    exact ⟨t0, rfl⟩
  | cons q rest ih =>
    intro hval locs pts t0
    have hq := hval q (List.mem_cons_self q rest)
    have hr : ¬(q.1 < -90 ∨ q.1 > 90 ∨ q.2.1 < -180 ∨ q.2.1 > 180) := by
      push_neg
      exact hq
    have hp := rest_step_paths_singleton locs tid pts t0 q.1 q.2.1 q.2.2 htid hr
    have hstep : (restLocationUpdate ⟨locs, [⟨tid, pts, t0⟩]⟩
          ⟨tid, some q.1, some q.2.1, none, none⟩ q.2.2).2.1
        = ⟨(restLocationUpdate ⟨locs, [⟨tid, pts, t0⟩]⟩
              ⟨tid, some q.1, some q.2.1, none, none⟩ q.2.2).2.1.locations,
           [⟨tid, sliceLastN 1000 (pts ++ [mkPoint q]), q.2.2⟩]⟩ := by
      have : (⟨q.1, q.2.1, q.2.2⟩ : TrailPoint) = mkPoint q := rfl
      rw [← this, ← hp]
    obtain ⟨t', ht⟩ := ih (fun p hp' => hval p (List.mem_cons_of_mem q hp'))
      (restLocationUpdate ⟨locs, [⟨tid, pts, t0⟩]⟩
          ⟨tid, some q.1, some q.2.1, none, none⟩ q.2.2).2.1.locations
      (sliceLastN 1000 (pts ++ [mkPoint q])) q.2.2
    refine ⟨t', ?_⟩
    rw [List.map_cons]
    unfold runRestUpdates at ht ⊢
    rw [List.foldl_cons]
    simp only [mkInput]
    rw [hstep, List.foldl_cons]
    exact ht

/-! ## Claim theorems -/

/-- C1, counterexample: a connection `C` subscribed to `track:X` receives the
`location:updated` event **twice** from one accepted socket update for `X`
(once from the global `io.emit`, once from the room emission), not exactly
once as the claim states. -/
theorem c1_counterexample :
    deliveriesTo ⟨["C"], [("track:X", "C")]⟩ "C" "location:updated"
        ((socketLocationUpdate ⟨[], []⟩ "S" ⟨"X", some 1, some 2, none, none⟩ 5).2.2)
      = 2 ∧
    ¬ deliveriesTo ⟨["C"], [("track:X", "C")]⟩ "C" "location:updated"
        ((socketLocationUpdate ⟨[], []⟩ "S" ⟨"X", some 1, some 2, none, none⟩ 5).2.2)
      = 1 := by
  decide

/-- C2, counterexample: the same accepted input produces different emission
sets on the two entry points — the socket handler emits to the per-track
room `track:X`, the REST route does not. -/
theorem c2_counterexample :
    (restLocationUpdate ⟨[], []⟩ ⟨"X", some 1, some 2, none, none⟩ 5).2.2
      ≠ (socketLocationUpdate ⟨[], []⟩ "S" ⟨"X", some 1, some 2, none, none⟩ 5).2.2 ∧
    Emission.room "track:X" "location:updated" ⟨"X", 1, 2, 0, 0, 5⟩
      ∈ (socketLocationUpdate ⟨[], []⟩ "S" ⟨"X", some 1, some 2, none, none⟩ 5).2.2 ∧
    Emission.room "track:X" "location:updated" ⟨"X", 1, 2, 0, 0, 5⟩
      ∉ (restLocationUpdate ⟨[], []⟩ ⟨"X", some 1, some 2, none, none⟩ 5).2.2 := by
  decide

/-- C3: the code violates the claim.  A trail holding a point with
timestamp `0` receives an accepted update at `now = 25h`; the stored trail
afterwards still contains the stale point, whose timestamp `0` predates the
24-hour cutoff `now − 24h = 1h` — the `findOneAndUpdate` write path never
runs the `pre('save')` 24-hour filter, whose effect (shown in the third
conjunct) would have removed it. -/
theorem c3_stale_point_survives_append :
    ((restLocationUpdate ⟨[], [⟨"TRK-ABC", [⟨1, 2, 0⟩], 0⟩]⟩
        ⟨"TRK-ABC", some 1, some 2, none, none⟩ (dayMs + hourMs)).2.1.paths
      = [⟨"TRK-ABC", [⟨1, 2, 0⟩, ⟨1, 2, dayMs + hourMs⟩], dayMs + hourMs⟩]) ∧
    ((0 : Int) < dayMs + hourMs - dayMs) ∧
    (preSavePathFilter (dayMs + hourMs) [⟨1, 2, 0⟩, ⟨1, 2, dayMs + hourMs⟩]
      = [⟨1, 2, dayMs + hourMs⟩]) := by
  decide

/-- C4: an update whose latitude or longitude is out of range is rejected
as invalid coordinates by both entry points, the database state is exactly
the state before the call, and no broadcast (global or room) emission is
published (the socket handler only sends the error back to the caller). -/
theorem c4_out_of_range_no_mutation (st : ServerState) (sid tid : String)
    (la ln : ℚ) (sp ac : Option ℚ) (now : Int) (htid : tid ≠ "")
    (hr : la < -90 ∨ la > 90 ∨ ln < -180 ∨ ln > 180) :
    restLocationUpdate st ⟨tid, some la, some ln, sp, ac⟩ now
      = (.invalidCoordinates, st, []) ∧
    socketLocationUpdate st sid ⟨tid, some la, some ln, sp, ac⟩ now
      = (.invalidCoordinates, st, [.direct sid "error" "Invalid coordinates"]) ∧
    ∀ e ∈ (socketLocationUpdate st sid ⟨tid, some la, some ln, sp, ac⟩ now).2.2,
      isGlobalEmission e = false ∧ isRoomEmission e = false := by
  refine ⟨restLocationUpdate_out_of_range st tid la ln sp ac now htid hr,
    socketLocationUpdate_out_of_range st sid tid la ln sp ac now htid hr, ?_⟩
  rw [socketLocationUpdate_out_of_range st sid tid la ln sp ac now htid hr]
  intro e he
  rw [List.mem_singleton.mp he]
  exact ⟨rfl, rfl⟩

/-- C4, witness: latitude 95 is rejected and the (empty) store is untouched. -/
theorem c4_out_of_range_no_mutation_witness :
    ("TRK-ABC" : String) ≠ "" ∧
    ((95 : ℚ) < -90 ∨ (95 : ℚ) > 90 ∨ (0 : ℚ) < -180 ∨ (0 : ℚ) > 180) ∧
    restLocationUpdate ⟨[], []⟩ ⟨"TRK-ABC", some 95, some 0, none, none⟩ 0
      = (.invalidCoordinates, ⟨[], []⟩, []) :=
  ⟨by decide, by decide,
   (c4_out_of_range_no_mutation ⟨[], []⟩ "S" "TRK-ABC" 95 0 none none 0
      (by decide) (by decide)).1⟩

/-- C9, counterexample: the claim's invariant fails — an accepted update
carrying `speed = -5` is persisted with the negative speed unchanged
(JavaScript `speed || 0` only replaces falsy values), so a stored Position
Record can have `speed < 0`. -/
theorem c9_counterexample :
    (restLocationUpdate ⟨[], []⟩ ⟨"TRK-ABC", some 1, some 2, some (-5), none⟩
        0).2.1.locations
      = [⟨"TRK-ABC", 1, 2, -5, 0, 0, true⟩] ∧
    ((-5 : ℚ) < 0) := by
  decide

/-- C2 (amended): the two entry points perform identical validation and
identical store side effects — the same accept/reject decision, the same
Position upsert and the same Trail append-and-trim — and publish identical
global broadcasts; but the emission sets are not identical: the per-track
room broadcast is emitted only by the socket entry point (the REST route
publishes no room emission at all). -/
theorem c2_pipeline_agreement (st : ServerState) (sid : String)
    (inp : LocUpdateInput) (now : Int) :
    (socketLocationUpdate st sid inp now).1 = (restLocationUpdate st inp now).1 ∧
    (socketLocationUpdate st sid inp now).2.1 = (restLocationUpdate st inp now).2.1 ∧
    (socketLocationUpdate st sid inp now).2.2.filter isGlobalEmission
      = (restLocationUpdate st inp now).2.2.filter isGlobalEmission ∧
    (restLocationUpdate st inp now).2.2.filter isRoomEmission = [] := by
  obtain ⟨h1, h2⟩ := socket_rest_agree st sid inp now
  refine ⟨h1, h2, ?_, ?_⟩
  · unfold socketLocationUpdate restLocationUpdate
    cases hla : inp.lat with
    | none => cases hln : inp.lng <;> rfl
    | some la =>
      cases hln : inp.lng with
      | none => rfl
      | some ln =>
        by_cases hc1 : inp.trackId = ""
        · simp [hc1, isGlobalEmission]
        · by_cases hc2 : la < -90 ∨ la > 90 ∨ ln < -180 ∨ ln > 180
          · simp [hc1, hc2, isGlobalEmission]
          · simp [hc1, hc2, isGlobalEmission]
  · unfold restLocationUpdate
    cases hla : inp.lat with
    | none => cases hln : inp.lng <;> rfl
    | some la =>
      cases hln : inp.lng with
      | none => rfl
      | some ln =>
        by_cases hc1 : inp.trackId = ""
        · simp [hc1]
        · by_cases hc2 : la < -90 ∨ la > 90 ∨ ln < -180 ∨ ln > 180
          · simp [hc1, hc2]
          · simp [hc1, hc2, isRoomEmission]

/-- C9 (amended): for every accepted update the persisted `speed` and
`accuracy` equal the submitted values with absent values defaulting to `0`;
they are nonnegative whenever the submitted values are nonnegative (the
code does not itself enforce nonnegativity). -/
theorem c9_speed_accuracy_defaults (st : ServerState) (tid : String)
    (la ln : ℚ) (sp ac : Option ℚ) (now : Int) (htid : tid ≠ "")
    (hr : ¬(la < -90 ∨ la > 90 ∨ ln < -180 ∨ ln > 180))
    (hs : ∀ x ∈ sp, 0 ≤ x) (ha : ∀ x ∈ ac, 0 ≤ x) :
    findLocation
        (restLocationUpdate st ⟨tid, some la, some ln, sp, ac⟩ now).2.1.locations
        tid
      = some ⟨tid, la, ln, sp.getD 0, ac.getD 0, now, true⟩ ∧
    0 ≤ sp.getD 0 ∧ 0 ≤ ac.getD 0 := by
  rw [restLocationUpdate_accepted _ _ _ _ _ _ _ htid hr]
  refine ⟨?_, ?_, ?_⟩
  · rw [jsOrZero_eq_getD, jsOrZero_eq_getD] at *
    exact findLocation_upsert_self st.locations tid
      ⟨tid, la, ln, sp.getD 0, ac.getD 0, now, true⟩ rfl
  · cases sp with
    | none => exact le_refl 0
    | some x => exact hs x rfl
  · cases ac with
    | none => exact le_refl 0
    | some x => exact ha x rfl

/-- C9, witness: a submitted nonnegative speed with absent accuracy is
stored as given, with accuracy defaulted to 0, both nonnegative. -/
theorem c9_speed_accuracy_defaults_witness :
    ("TRK-ABC" : String) ≠ "" ∧
    ¬((3 : ℚ) < -90 ∨ (3 : ℚ) > 90 ∨ (4 : ℚ) < -180 ∨ (4 : ℚ) > 180) ∧
    (findLocation
        (restLocationUpdate ⟨[], []⟩ ⟨"TRK-ABC", some 3, some 4, some 7, none⟩
            9).2.1.locations "TRK-ABC"
      = some ⟨"TRK-ABC", 3, 4, (some (7 : ℚ)).getD 0, (none : Option ℚ).getD 0, 9, true⟩ ∧
     0 ≤ (some (7 : ℚ)).getD 0 ∧ 0 ≤ (none : Option ℚ).getD 0) :=
  ⟨by decide, by decide,
   c9_speed_accuracy_defaults ⟨[], []⟩ "TRK-ABC" 3 4 (some 7) none 9
     (by decide) (by decide) (by intro x hx; rw [Option.mem_def, Option.some_inj] at hx; rw [← hx]; decide)
     (by intro x hx; simp at hx)⟩

/-- C6: after an accepted update, reading the position back returns a
record whose `lat`/`lng` are exactly the submitted values, `isActive` is
`true`, and `speed`/`accuracy` equal the submitted values or `0` when
absent. -/
theorem c6_position_reflects_update (st : ServerState) (tid : String)
    (la ln : ℚ) (sp ac : Option ℚ) (now now2 : Int) (htid : tid ≠ "")
    (hr : ¬(la < -90 ∨ la > 90 ∨ ln < -180 ∨ ln > 180)) :
    getLocationRoute (restLocationUpdate st ⟨tid, some la, some ln, sp, ac⟩ now).2.1
        tid now2
      = .found ⟨tid, la, ln, sp.getD 0, ac.getD 0, now, true⟩
          (decide (now2 - 30000 < now)) := by
  rw [restLocationUpdate_accepted _ _ _ _ _ _ _ htid hr]
  unfold getLocationRoute
  rw [if_neg htid]
  rw [jsOrZero_eq_getD, jsOrZero_eq_getD]
  rw [show (⟨upsertLocation st.locations tid ⟨tid, la, ln, sp.getD 0, ac.getD 0, now, true⟩,
        upsertPath st.paths tid ⟨la, ln, now⟩ now⟩ : ServerState).locations
      = upsertLocation st.locations tid ⟨tid, la, ln, sp.getD 0, ac.getD 0, now, true⟩
      from rfl]
  rw [findLocation_upsert_self st.locations tid
      ⟨tid, la, ln, sp.getD 0, ac.getD 0, now, true⟩ rfl]

/-- C6, witness: the spec's scenario — submitting `{lat: 37.7, lng: -122.4}`
with no speed/accuracy yields a record `{lat: 37.7, lng: -122.4, speed: 0,
accuracy: 0, isActive: true}` on read-back. -/
theorem c6_position_reflects_update_witness :
    ("TRK-ABC" : String) ≠ "" ∧
    ¬((37.7 : ℚ) < -90 ∨ (37.7 : ℚ) > 90 ∨ (-122.4 : ℚ) < -180 ∨ (-122.4 : ℚ) > 180) ∧
    getLocationRoute
        (restLocationUpdate ⟨[], []⟩
            ⟨"TRK-ABC", some 37.7, some (-122.4), none, none⟩ 0).2.1 "TRK-ABC" 0
      = .found ⟨"TRK-ABC", 37.7, -122.4, (none : Option ℚ).getD 0,
          (none : Option ℚ).getD 0, 0, true⟩ (decide ((0 : Int) - 30000 < 0)) :=
  ⟨by decide, by norm_num,
   c6_position_reflects_update ⟨[], []⟩ "TRK-ABC" 37.7 (-122.4) none none 0 0
     (by decide) (by norm_num)⟩

/-- C10: deactivating an existing track succeeds, flips only `isActive` to
`false` on that track's Position Record (all other fields of the record are
kept), leaves every other Position Record untouched, and leaves the Trail
Store entirely unchanged. -/
theorem c10_deactivate_frame (st : ServerState) (tid : String)
    (r : LocationRecord) (htid : tid ≠ "")
    (h : findLocation st.locations tid = some r) :
    (deactivateRoute st tid).1 = .success ∧
    (deactivateRoute st tid).2.paths = st.paths ∧
    findLocation (deactivateRoute st tid).2.locations tid
      = some { r with isActive := false } ∧
    ∀ t2, t2 ≠ tid →
      findLocation (deactivateRoute st tid).2.locations t2
        = findLocation st.locations t2 := by
  have hsome : (findLocation st.locations tid).isSome := by rw [h]; rfl
  unfold deactivateRoute
  rw [if_neg htid, if_pos hsome]
  refine ⟨rfl, rfl, ?_, ?_⟩
  · exact findBy_updateFirst_self (fun x hx => hx) h
  · intro t2 ht2
    exact findBy_updateFirst_other st.locations (fun x hx => hx) ht2

/-- C10, witness: deactivating a stored track flips only `isActive`. -/
theorem c10_deactivate_frame_witness :
    ("TRK-ABC" : String) ≠ "" ∧
    findLocation [⟨"TRK-ABC", 1, 2, 3, 4, 99, true⟩] "TRK-ABC"
      = some ⟨"TRK-ABC", 1, 2, 3, 4, 99, true⟩ ∧
    ((deactivateRoute ⟨[⟨"TRK-ABC", 1, 2, 3, 4, 99, true⟩], [⟨"TRK-ABC", [], 99⟩]⟩
        "TRK-ABC").1 = .success ∧
     (deactivateRoute ⟨[⟨"TRK-ABC", 1, 2, 3, 4, 99, true⟩], [⟨"TRK-ABC", [], 99⟩]⟩
        "TRK-ABC").2.paths = [⟨"TRK-ABC", [], 99⟩] ∧
     findLocation
        (deactivateRoute ⟨[⟨"TRK-ABC", 1, 2, 3, 4, 99, true⟩], [⟨"TRK-ABC", [], 99⟩]⟩
           "TRK-ABC").2.locations "TRK-ABC"
      = some ⟨"TRK-ABC", 1, 2, 3, 4, 99, false⟩) := by
  have h := c10_deactivate_frame
    ⟨[⟨"TRK-ABC", 1, 2, 3, 4, 99, true⟩], [⟨"TRK-ABC", [], 99⟩]⟩ "TRK-ABC"
    ⟨"TRK-ABC", 1, 2, 3, 4, 99, true⟩ (by decide) (by decide)
  exact ⟨by decide, by decide, h.1, h.2.1, h.2.2.1⟩

/-- Joining a room the socket already belongs to changes nothing. -/
theorem joinRoom_of_mem {b : Broadcaster} {roomName sid : String}
    (h : (roomName, sid) ∈ b.rooms) : joinRoom b roomName sid = b := by
  unfold joinRoom
  rw [if_pos h]

/-- C7: both the manual cleanup route and the hourly job delete exactly the
Position Records with `timestamp < now − 24h` and the Trail Records with
`lastUpdated < now − 24h`; no surviving record predates the cutoff, the
manual route leaves the same state as a janitor tick, and it returns both
deleted counts. -/
theorem c7_cleanup_removes_stale (st : ServerState) (now : Int) :
    (∀ r ∈ (cleanupRoute st now).2.locations, ¬ r.timestamp < now - dayMs) ∧
    (∀ ph ∈ (cleanupRoute st now).2.paths, ¬ ph.lastUpdated < now - dayMs) ∧
    (cleanupRoute st now).2 = janitorTick st now ∧
    (cleanupRoute st now).1.1
      = (st.locations.filter (fun r => decide (r.timestamp < now - dayMs))).length ∧
    (cleanupRoute st now).1.2
      = (st.paths.filter (fun r => decide (r.lastUpdated < now - dayMs))).length := by
  have e : cleanupRoute st now
      = ((st.locations.length
            - (st.locations.filter (fun r => !decide (r.timestamp < now - dayMs))).length,
          st.paths.length
            - (st.paths.filter (fun r => !decide (r.lastUpdated < now - dayMs))).length),
         ⟨st.locations.filter (fun r => !decide (r.timestamp < now - dayMs)),
          st.paths.filter (fun r => !decide (r.lastUpdated < now - dayMs))⟩) := rfl
  have ej : janitorTick st now
      = ⟨st.locations.filter (fun r => !decide (r.timestamp < now - dayMs)),
         st.paths.filter (fun r => !decide (r.lastUpdated < now - dayMs))⟩ := rfl
  rw [e, ej]
  dsimp only
  refine ⟨?_, ?_, rfl, ?_, ?_⟩
  · intro r hr
    simpa using (List.mem_filter.mp hr).2
  · intro ph hph
    simpa using (List.mem_filter.mp hph).2
  · have := length_filter_not_add (fun r => decide (r.timestamp < now - dayMs))
      st.locations
    omega
  · have := length_filter_not_add (fun r => decide (r.lastUpdated < now - dayMs))
      st.paths
    omega

/-- C8: subscribing twice leaves the room membership identical to
subscribing once — hence identical delivery per publish — and each
subscribe call acknowledges the caller with `track:subscribed` naming the
trackId; after subscribing the connection is a member of `track:{trackId}`. -/
theorem c8_subscribe_idempotent (b : Broadcaster) (sid tid : String) :
    (trackSubscribe (trackSubscribe b sid tid).1 sid tid).1
      = (trackSubscribe b sid tid).1 ∧
    ("track:" ++ tid, sid) ∈ (trackSubscribe b sid tid).1.rooms ∧
    (trackSubscribe b sid tid).2 = [.direct sid "track:subscribed" tid] ∧
    (trackSubscribe (trackSubscribe b sid tid).1 sid tid).2
      = [.direct sid "track:subscribed" tid] ∧
    ∀ ev ems,
      deliveriesTo (trackSubscribe (trackSubscribe b sid tid).1 sid tid).1 sid ev ems
        = deliveriesTo (trackSubscribe b sid tid).1 sid ev ems := by
  have hmem : ("track:" ++ tid, sid) ∈ (joinRoom b ("track:" ++ tid) sid).rooms := by
    unfold joinRoom
    by_cases h : ("track:" ++ tid, sid) ∈ b.rooms
    · rw [if_pos h]
      exact h
    · rw [if_neg h]
      simp
  have hidem : joinRoom (joinRoom b ("track:" ++ tid) sid) ("track:" ++ tid) sid
      = joinRoom b ("track:" ++ tid) sid := joinRoom_of_mem hmem
  refine ⟨hidem, hmem, rfl, rfl, ?_⟩
  intro ev ems
  show deliveriesTo (joinRoom (joinRoom b ("track:" ++ tid) sid) ("track:" ++ tid) sid)
      sid ev ems = deliveriesTo (joinRoom b ("track:" ++ tid) sid) sid ev ems
  rw [hidem]

/-- C1 (amended): for a connection `C` subscribed to `track:X`, one
accepted update for `X` delivers the `location:updated` event to `C`
exactly twice via the socket entry point (once through the global
fan-out, once through the per-track topic) and exactly once via the REST
entry point (which has no per-topic emission) — except for the special
track id `"updated"`, where the legacy channel's event name
`location:${trackId}` collides with `location:updated`, giving three
socket-path and two REST-path deliveries; an accepted update for a
different track `Y` (to whose topic `C` is not subscribed) produces no
per-topic delivery to `C` through either entry point, for every `Y`. -/
theorem c1_delivery_counts (b : Broadcaster) (st st2 : ServerState)
    (sid C X Y : String) (la ln : ℚ) (sp ac : Option ℚ) (now : Int)
    (hC : C ∈ b.connections)
    (hX : ("track:" ++ X, C) ∈ b.rooms)
    (hY : ("track:" ++ Y, C) ∉ b.rooms)
    (hXe : X ≠ "") (hYe : Y ≠ "")
    (hr : ¬(la < -90 ∨ la > 90 ∨ ln < -180 ∨ ln > 180)) :
    deliveriesTo b C "location:updated"
        ((socketLocationUpdate st sid ⟨X, some la, some ln, sp, ac⟩ now).2.2)
      = (if X = "updated" then 3 else 2) ∧
    deliveriesTo b C "location:updated"
        ((restLocationUpdate st ⟨X, some la, some ln, sp, ac⟩ now).2.2)
      = (if X = "updated" then 2 else 1) ∧
    topicDeliveriesTo b C "location:updated"
        ((socketLocationUpdate st2 sid ⟨Y, some la, some ln, sp, ac⟩ now).2.2) = 0 ∧
    topicDeliveriesTo b C "location:updated"
        ((restLocationUpdate st2 ⟨Y, some la, some ln, sp, ac⟩ now).2.2) = 0 := by
  rw [socketLocationUpdate_accepted st sid X la ln sp ac now hXe hr,
    restLocationUpdate_accepted st X la ln sp ac now hXe hr,
    socketLocationUpdate_accepted st2 sid Y la ln sp ac now hYe hr,
    restLocationUpdate_accepted st2 Y la ln sp ac now hYe hr]
  have dC : decide (C ∈ b.connections) = true := decide_eq_true hC
  have dX : decide ((("track:" ++ X), C) ∈ b.rooms) = true := decide_eq_true hX
  have dY : decide ((("track:" ++ Y), C) ∈ b.rooms) = false := decide_eq_false hY
  by_cases hXup : X = "updated"
  · subst hXup
    have eX : (("location:" ++ "updated" : String) == "location:updated") = true := by
      decide
    have hX' : (("track:updated" : String), C) ∈ b.rooms := by
      have e : ("track:" ++ "updated" : String) = "track:updated" := by decide
      rw [← e]
      exact hX
    simp [deliveriesTo, topicDeliveriesTo, emissionReaches, roomEmissionReaches,
      List.filter_cons, eX, dC, dX, dY, hX']
  · have eX : (("location:" ++ X : String) == "location:updated") = false :=
      beq_eq_false_iff_ne.mpr (legacy_event_ne hXup)
    simp [deliveriesTo, topicDeliveriesTo, emissionReaches, roomEmissionReaches,
      List.filter_cons, eX, dC, dX, dY, hXup]

/-- C1, witness: concrete broadcaster with connection `C` subscribed to
`track:X` only. -/
theorem c1_delivery_counts_witness :
    (("C" : String) ∈ (⟨["C"], [("track:X", "C")]⟩ : Broadcaster).connections ∧
     ("track:" ++ "X", "C") ∈ (⟨["C"], [("track:X", "C")]⟩ : Broadcaster).rooms ∧
     ("track:" ++ "Y", "C") ∉ (⟨["C"], [("track:X", "C")]⟩ : Broadcaster).rooms ∧
     ("X" : String) ≠ "" ∧ ("Y" : String) ≠ "" ∧
     ¬((1 : ℚ) < -90 ∨ (1 : ℚ) > 90 ∨ (2 : ℚ) < -180 ∨ (2 : ℚ) > 180)) ∧
    (deliveriesTo ⟨["C"], [("track:X", "C")]⟩ "C" "location:updated"
        ((socketLocationUpdate ⟨[], []⟩ "S" ⟨"X", some 1, some 2, none, none⟩
            5).2.2) = (if ("X" : String) = "updated" then 3 else 2) ∧
     deliveriesTo ⟨["C"], [("track:X", "C")]⟩ "C" "location:updated"
        ((restLocationUpdate ⟨[], []⟩ ⟨"X", some 1, some 2, none, none⟩ 5).2.2)
       = (if ("X" : String) = "updated" then 2 else 1) ∧
     topicDeliveriesTo ⟨["C"], [("track:X", "C")]⟩ "C" "location:updated"
        ((socketLocationUpdate ⟨[], []⟩ "S" ⟨"Y", some 1, some 2, none, none⟩
            5).2.2) = 0 ∧
     topicDeliveriesTo ⟨["C"], [("track:X", "C")]⟩ "C" "location:updated"
        ((restLocationUpdate ⟨[], []⟩ ⟨"Y", some 1, some 2, none, none⟩ 5).2.2) = 0) :=
  ⟨⟨by decide, by decide, by decide, by decide, by decide, by decide⟩,
   c1_delivery_counts ⟨["C"], [("track:X", "C")]⟩ ⟨[], []⟩ ⟨[], []⟩ "S" "C" "X" "Y"
     1 2 none none 5 (by decide) (by decide) (by decide) (by decide) (by decide)
     (by decide)⟩

/-- C5: after any finite sequence of updates starting from the empty store,
every Trail Record holds at most 1000 points; and a run of 1500 accepted
sequential appends to one track leaves `getTrail` (with a window covering
every appended point) returning exactly the 1000 most recent points in
arrival order (the first 500 are dropped). -/
theorem c5_trail_bounded :
    (∀ l : List (LocUpdateInput × Int),
       ∀ ph ∈ (runRestUpdates ⟨[], []⟩ l).paths, ph.points.length ≤ 1000) ∧
    (∀ (tid : String) (l : List (ℚ × ℚ × Int)) (hours now : Int),
       tid ≠ "" → l.length = 1500 →
       (∀ q ∈ l, -90 ≤ q.1 ∧ q.1 ≤ 90 ∧ -180 ≤ q.2.1 ∧ q.2.1 ≤ 180) →
       (∀ q ∈ l, now - hours * hourMs < q.2.2) →
       getPathRoute (runRestUpdates ⟨[], []⟩ (l.map (mkInput tid))) tid hours now
         = .points ((l.map mkPoint).drop 500) ∧
       ((l.map mkPoint).drop 500).length = 1000) := by
  constructor
  · intro l
    exact paths_bound_run l ⟨[], []⟩ (by intro ph hph; cases hph)
  · intro tid l hours now htid hlen hval hcut
    cases l with
    | nil => simp at hlen
    | cons q rest =>
      have hq := hval q (List.mem_cons_self q rest)
      have hr0 : ¬(q.1 < -90 ∨ q.1 > 90 ∨ q.2.1 < -180 ∨ q.2.1 > 180) := by
        push_neg
        exact hq
      have hp0 := rest_step_paths_empty [] tid q.1 q.2.1 q.2.2 htid hr0
      have hstep : (restLocationUpdate ⟨[], []⟩
            ⟨tid, some q.1, some q.2.1, none, none⟩ q.2.2).2.1
          = ⟨(restLocationUpdate ⟨[], []⟩
                ⟨tid, some q.1, some q.2.1, none, none⟩ q.2.2).2.1.locations,
             [⟨tid, [mkPoint q], q.2.2⟩]⟩ := by
        have hmp : (⟨q.1, q.2.1, q.2.2⟩ : TrailPoint) = mkPoint q := rfl
        rw [← hmp, ← hp0]
      obtain ⟨t', ht⟩ := run_paths_singleton tid htid rest
        (fun p hp' => hval p (List.mem_cons_of_mem q hp'))
        (restLocationUpdate ⟨[], []⟩
            ⟨tid, some q.1, some q.2.1, none, none⟩ q.2.2).2.1.locations
        [mkPoint q] q.2.2
      have hrun : (runRestUpdates ⟨[], []⟩ ((q :: rest).map (mkInput tid))).paths
          = [⟨tid,
              List.foldl (fun a p => sliceLastN 1000 (a ++ [mkPoint p]))
                [mkPoint q] rest,
              t'⟩] := by
        rw [List.map_cons]
        unfold runRestUpdates at ht ⊢
        rw [List.foldl_cons]
        simp only [mkInput]
        rw [hstep]
        exact ht
      have hfold : List.foldl (fun a p => sliceLastN 1000 (a ++ [mkPoint p]))
            [mkPoint q] rest
          = sliceLastN 1000 ((q :: rest).map mkPoint) := by
        rw [← List.foldl_map mkPoint (fun a p => sliceLastN 1000 (a ++ [p])) rest
            [mkPoint q]]
        rw [foldl_push_eq_sliceLastN (rest.map mkPoint) [mkPoint q] (by simp)]
        rw [List.map_cons, List.singleton_append]
      have hdrop : sliceLastN 1000 ((q :: rest).map mkPoint)
          = ((q :: rest).map mkPoint).drop 500 := by
        unfold sliceLastN
        rw [List.length_map, hlen]
      constructor
      · unfold getPathRoute
        rw [if_neg htid, hrun]
        have hfind : findPath
            [⟨tid, List.foldl (fun a p => sliceLastN 1000 (a ++ [mkPoint p]))
                [mkPoint q] rest, t'⟩] tid
            = some ⟨tid,
                List.foldl (fun a p => sliceLastN 1000 (a ++ [mkPoint p]))
                  [mkPoint q] rest, t'⟩ := by
          unfold findPath findBy
          simp
        rw [hfind, hfold, hdrop]
        dsimp only
        have hfilter : (((q :: rest).map mkPoint).drop 500).filter
              (fun p => decide (now - hours * hourMs < p.timestamp))
            = ((q :: rest).map mkPoint).drop 500 := by
          rw [List.filter_eq_self]
          intro p hp
          obtain ⟨q', hq', hq'e⟩ := List.mem_map.mp (List.mem_of_mem_drop hp)
          rw [← hq'e]
          exact decide_eq_true (hcut q' hq')
        rw [hfilter]
      · rw [List.length_drop, List.length_map, hlen]

/-- C5, witness: 1500 sequential appends at times 1..1500 to track
`TRK-ABC`, read back with a window reaching every point. -/
theorem c5_trail_bounded_witness :
    (("TRK-ABC" : String) ≠ "" ∧
     ((List.range 1500).map (fun i : Nat => ((0 : ℚ), (0 : ℚ), (i : Int) + 1))).length
       = 1500 ∧
     (∀ q ∈ (List.range 1500).map (fun i : Nat => ((0 : ℚ), (0 : ℚ), (i : Int) + 1)),
        -90 ≤ q.1 ∧ q.1 ≤ 90 ∧ -180 ≤ q.2.1 ∧ q.2.1 ≤ 180) ∧
     (∀ q ∈ (List.range 1500).map (fun i : Nat => ((0 : ℚ), (0 : ℚ), (i : Int) + 1)),
        (1500 : Int) - 1 * hourMs < q.2.2)) ∧
    (getPathRoute
        (runRestUpdates ⟨[], []⟩
          (((List.range 1500).map (fun i : Nat => ((0 : ℚ), (0 : ℚ), (i : Int) + 1))).map
            (mkInput "TRK-ABC")))
        "TRK-ABC" 1 1500
      = .points
          ((((List.range 1500).map
              (fun i : Nat => ((0 : ℚ), (0 : ℚ), (i : Int) + 1))).map mkPoint).drop 500) ∧
     ((((List.range 1500).map
          (fun i : Nat => ((0 : ℚ), (0 : ℚ), (i : Int) + 1))).map mkPoint).drop 500).length
       = 1000) := by
  have h1 : ("TRK-ABC" : String) ≠ "" := by decide
  have h2 : ((List.range 1500).map
      (fun i : Nat => ((0 : ℚ), (0 : ℚ), (i : Int) + 1))).length = 1500 := by
    rw [List.length_map, List.length_range]
  have h3 : ∀ q ∈ (List.range 1500).map (fun i : Nat => ((0 : ℚ), (0 : ℚ), (i : Int) + 1)),
      -90 ≤ q.1 ∧ q.1 ≤ 90 ∧ -180 ≤ q.2.1 ∧ q.2.1 ≤ 180 := by
    intro q hq
    obtain ⟨i, _, hqe⟩ := List.mem_map.mp hq
    rw [← hqe]
    refine ⟨by norm_num, by norm_num, by norm_num, by norm_num⟩
  have h4 : ∀ q ∈ (List.range 1500).map (fun i : Nat => ((0 : ℚ), (0 : ℚ), (i : Int) + 1)),
      (1500 : Int) - 1 * hourMs < q.2.2 := by
    intro q hq
    obtain ⟨i, _, hqe⟩ := List.mem_map.mp hq
    rw [← hqe]
    show (1500 : Int) - 1 * hourMs < (i : Int) + 1
    have hi : (0 : Int) ≤ (i : Int) := Int.natCast_nonneg i
    unfold hourMs
    omega
  exact ⟨⟨h1, h2, h3, h4⟩,
    c5_trail_bounded.2 "TRK-ABC"
      ((List.range 1500).map (fun i : Nat => ((0 : ℚ), (0 : ℚ), (i : Int) + 1)))
      1 1500 h1 h2 h3 h4⟩

end Tracker
